import Mathlib

/-
  Verification of the estafette-ci-api event dispatch and build-job
  orchestration engine against its natural-language specification.

  The Go sources embedded here:
    - github/githubEventWorker.go   (worker pipeline for push events)
    - bitbucket/bitbucketApiClient.go (provider API client)
    - docker client (GetToken / GetDigest / GetDigestCached, TTL caching)
    - main.go (dispatcher wiring)

  Strings are modelled as lists of characters, times as integers
  (seconds; Go time.Time values compared with After, which is a strict
  order), Go maps as association lists observed through lookup, network
  and JSON effects as oracle functions supplying the outcome of each
  external exchange, and instrumentation (prometheus counters, opentracing
  spans, outbound HTTP requests) as explicit effect traces.
-/

set_option autoImplicit false

/-- Character-list model of Go strings. -/
abbrev Str := List Char

/-- Opaque error values (Go error). -/
abbrev Err := Str

/-- Go map read `m[k]` with ok-flag, modelled on an association list:
the most recent binding for a key shadows older ones. -/
def lookupAL {α : Type} (k : Str) : List (Str × α) → Option α
  | [] => none
  | (k', v) :: rest => if k = k' then some v else lookupAL k rest

/-- Go map write `m[k] = v`: the new binding shadows any older one. -/
def insertAL {α : Type} (k : Str) (v : α) (m : List (Str × α)) : List (Str × α) :=
  (k, v) :: m

/-- Go strings.Replace(s, old, new, 1): replace the first (leftmost)
occurrence of old in s by new. -/
def goReplaceOnce (old new : Str) : Str → Str
  | [] => []
  | c :: cs =>
    if old.isPrefixOf (c :: cs) then new ++ (c :: cs).drop old.length
    else c :: goReplaceOnce old new cs

/-- Go strings.Replace(s, old, new, -1) for a nonempty pattern: replace
every non-overlapping occurrence of old in s by new, scanning left to
right (the guard on old keeps recursion well-founded; the sources only
use the constant nonempty pattern of the bitbucket base URL). -/
def goReplaceAll (old new : Str) : Str → Str
  | [] => []
  | c :: cs =>
    if h : old.isPrefixOf (c :: cs) ∧ old ≠ [] then
      new ++ goReplaceAll old new ((c :: cs).drop old.length)
    else
      c :: goReplaceAll old new cs
termination_by s => s.length
decreasing_by
  · simp only [List.length_drop]
    have hpos : 0 < old.length := List.length_pos.mpr h.2
    simp only [List.length_cons]
    omega
  · simp only [List.length_cons]
    omega

/-- Decides whether old occurs as a contiguous substring of s
(Go strings.Contains shape). -/
def containsSub (old : Str) : Str → Bool
  | [] => old.isEmpty
  | c :: cs => old.isPrefixOf (c :: cs) || containsSub old cs

/-- Instrumentation and network side effects emitted by the provider API
clients: opentracing span open/close, prometheus outbound-call counter
increment tagged with a target, and an attempted outbound HTTP request. -/
inductive Effect where
  | spanStart (name : Str)
  | spanFinish (name : Str)
  | counterInc (target : Str)
  | httpRequest (method url : Str)
deriving DecidableEq

/-- Tests whether an effect is a counter increment. -/
def Effect.isCounterInc : Effect → Bool
  | .counterInc _ => true
  | _ => false

/-- Tests whether an effect is a counter increment tagged with the given
target name. -/
def Effect.isCounterIncFor (target : Str) : Effect → Bool
  | .counterInc t => t = target
  | _ => false

/-- Tests whether an effect opens a span. -/
def Effect.isSpanStart : Effect → Bool
  | .spanStart _ => true
  | _ => false

/-- Tests whether an effect closes a span. -/
def Effect.isSpanFinish : Effect → Bool
  | .spanFinish _ => true
  | _ => false

/-- Tests whether an effect is an outbound HTTP request. -/
def Effect.isHttpRequest : Effect → Bool
  | .httpRequest _ _ => true
  | _ => false

/-- Number of counter increments in an effect trace. -/
def counterIncCount (effects : List Effect) : Nat :=
  (effects.filter Effect.isCounterInc).length

/-- Number of counter increments tagged with the given target. -/
def counterIncCountFor (target : Str) (effects : List Effect) : Nat :=
  (effects.filter (Effect.isCounterIncFor target)).length

/-- Number of span-open effects in a trace. -/
def spanStartCount (effects : List Effect) : Nat :=
  (effects.filter Effect.isSpanStart).length

/-- Number of span-close effects in a trace. -/
def spanFinishCount (effects : List Effect) : Nat :=
  (effects.filter Effect.isSpanFinish).length

/-- Number of outbound HTTP requests in a trace. -/
def httpRequestCount (effects : List Effect) : Nat :=
  (effects.filter Effect.isHttpRequest).length

/-- An effect trace is bracketed by exactly one tracing span: it opens
the named span first, closes it last, and opens or closes no span in
between. -/
def spanBracketed (name : Str) (effects : List Effect) : Prop :=
  ∃ mid, effects = Effect.spanStart name :: (mid ++ [Effect.spanFinish name]) ∧
    spanStartCount mid = 0 ∧ spanFinishCount mid = 0

/-- Outcome of one HTTP exchange: the status code of the response
together with the outcome of reading its body (ioutil.ReadAll can fail). -/
structure HttpResponse where
  statusCode : Nat
  body : Except Err Str

/-- Embeds DockerHubToken: a bearer token with its validity window
(fields Token, ExpiresIn, IssuedAt of the Go struct; times in seconds). -/
structure DockerHubToken where
  token : Str
  expiresIn : Int
  issuedAt : Int
deriving DecidableEq

/-- Embeds DockerHubToken.ExpiresAt: IssuedAt plus ExpiresIn seconds. -/
def DockerHubToken.ExpiresAt (t : DockerHubToken) : Int :=
  t.issuedAt + t.expiresIn

/-- Embeds DockerHubToken.IsExpired: time.Now().UTC().After(ExpiresAt()),
where Go After is the strict order on instants; now is the current clock. -/
def DockerHubToken.IsExpired (t : DockerHubToken) (now : Int) : Bool :=
  decide (t.ExpiresAt < now)

/-- Embeds DockerImageDigest: a resolved image digest with its validity
window (fields Digest, ExpiresIn, FetchedAt of the Go struct). -/
structure DockerImageDigest where
  digest : Str
  expiresIn : Int
  fetchedAt : Int
deriving DecidableEq

/-- Embeds DockerImageDigest.ExpiresAt: FetchedAt plus ExpiresIn seconds. -/
def DockerImageDigest.ExpiresAt (d : DockerImageDigest) : Int :=
  d.fetchedAt + d.expiresIn

/-- Embeds DockerImageDigest.IsExpired: time.Now().UTC().After(ExpiresAt()). -/
def DockerImageDigest.IsExpired (d : DockerImageDigest) (now : Int) : Bool :=
  decide (d.ExpiresAt < now)

/-- Go zero value of DockerHubToken, produced by reading a missing map key. -/
def zeroDockerHubToken : DockerHubToken :=
  { token := [], expiresIn := 0, issuedAt := 0 }

/-- Oracle supplying the outcomes of the Docker Hub network exchanges:
getToken summarises the pester.Get, body read and json.Unmarshal of
GetToken; getDigestHeader summarises the HEAD request of GetDigest and
yields the Docker-Content-Digest response header. -/
structure DockerHubOracle where
  getToken : Str → Except Err DockerHubToken
  getDigestHeader : DockerHubToken → Str → Str → Except Err Str

/-- Scoped bearer-token URL built by GetToken from the repository name. -/
def dockerTokenURL (repository : Str) : Str :=
  "https://auth.docker.io/token?service=registry.docker.io&scope=repository:".toList
    ++ repository ++ ":pull".toList

/-- Manifest URL built by GetDigest from repository and tag. -/
def dockerDigestURL (repository tag : Str) : Str :=
  "https://index.docker.io/v2/".toList ++ repository ++ "/manifests/".toList ++ tag

/-- Span name opened by GetDigest. -/
def digestSpanName : Str := "DockerHubApi::GetDigest".toList

/-- Embeds dockerHubAPIClientImpl.GetToken: one outbound GET to the
auth endpoint (via pester, with no tracing span and no prometheus
counter increment), returning the unmarshalled token; the effect trace
is the same on the success and failure paths. -/
def GetToken (o : DockerHubOracle) (repository : Str) :
    Except Err DockerHubToken × List Effect :=
  (o.getToken repository, [Effect.httpRequest "GET".toList (dockerTokenURL repository)])

/-- Embeds dockerHubAPIClientImpl.GetDigest: opens a span (closed by
defer on every path), performs one HEAD request with no counter
increment, and on success builds a DockerImageDigest from the
Docker-Content-Digest header with a fixed 300-second validity and the
current time as fetch time. -/
def GetDigest (o : DockerHubOracle) (now : Int) (token : DockerHubToken)
    (repository tag : Str) : Except Err DockerImageDigest × List Effect :=
  let effects := [Effect.spanStart digestSpanName,
    Effect.httpRequest "HEAD".toList (dockerDigestURL repository tag),
    Effect.spanFinish digestSpanName]
  match o.getDigestHeader token repository tag with
  | .error e => (.error e, effects)
  | .ok hdr => (.ok { digest := hdr, expiresIn := 300, fetchedAt := now }, effects)

/-- Cache key built by GetDigestCached: fmt.Sprintf of repository, a
colon and the tag. -/
def dockerKey (repository tag : Str) : Str :=
  repository ++ [':'] ++ tag

/-- Records the fetch invocations GetDigestCached performs: a call to
GetToken for a repository or a call to GetDigest for a repository and
tag. -/
inductive DockerCall where
  | tokenFetch (repository : Str)
  | digestFetch (repository tag : Str)
deriving DecidableEq

/-- Tests whether a recorded call is a token fetch. -/
def DockerCall.isTokenFetch : DockerCall → Bool
  | .tokenFetch _ => true
  | _ => false

/-- Tests whether a recorded call is a digest fetch. -/
def DockerCall.isDigestFetch : DockerCall → Bool
  | .digestFetch _ _ => true
  | _ => false

/-- Number of token fetches in a call trace. -/
def tokenFetchCount (calls : List DockerCall) : Nat :=
  (calls.filter DockerCall.isTokenFetch).length

/-- Number of digest fetches in a call trace. -/
def digestFetchCount (calls : List DockerCall) : Nat :=
  (calls.filter DockerCall.isDigestFetch).length

/-- Outcome of one GetDigestCached invocation: the returned digest or
error, the token and digest cache maps after the call, and the fetch
invocations performed. -/
structure CachedDigestResult where
  result : Except Err DockerImageDigest
  tokens : List (Str × DockerHubToken)
  digests : List (Str × DockerImageDigest)
  calls : List DockerCall

/-- Second half of GetDigestCached, past the token block: reads the
token map at the repository key (Go yields the zero value on a missing
key), invokes GetDigest exactly once, and on success stores the fresh
digest under the cache key. -/
def getDigestStep (o : DockerHubOracle) (now : Int)
    (tokens : List (Str × DockerHubToken)) (digests : List (Str × DockerImageDigest))
    (repository tag key : Str) (callsSoFar : List DockerCall) : CachedDigestResult :=
  let token := (lookupAL repository tokens).getD zeroDockerHubToken
  match (GetDigest o now token repository tag).1 with
  | .error e =>
    { result := .error e, tokens := tokens, digests := digests,
      calls := callsSoFar ++ [.digestFetch repository tag] }
  | .ok d =>
    { result := .ok d, tokens := tokens, digests := insertAL key d digests,
      calls := callsSoFar ++ [.digestFetch repository tag] }

/-- Refresh path of GetDigestCached, taken when the digest cache has no
valid entry for the key: renew the token if it is missing or expired
(a fetch failure returns at once, mutating nothing), then renew the
digest. -/
def getDigestRefresh (o : DockerHubOracle) (now : Int)
    (tokens : List (Str × DockerHubToken)) (digests : List (Str × DockerImageDigest))
    (repository tag key : Str) : CachedDigestResult :=
  let renew : Bool :=
    match lookupAL repository tokens with
    | none => true
    | some val => val.IsExpired now
  if renew then
    match (GetToken o repository).1 with
    | .error e =>
      { result := .error e, tokens := tokens, digests := digests,
        calls := [.tokenFetch repository] }
    | .ok token =>
      getDigestStep o now (insertAL repository token tokens) digests
        repository tag key [.tokenFetch repository]
  else
    getDigestStep o now tokens digests repository tag key []

/-- Embeds dockerHubAPIClientImpl.GetDigestCached: return the cached
digest when one exists for the repository:tag key and is still valid;
otherwise refresh the token if needed and refetch the digest, storing
successful fetch results back into the caches. -/
def GetDigestCached (o : DockerHubOracle) (now : Int)
    (tokens : List (Str × DockerHubToken)) (digests : List (Str × DockerImageDigest))
    (repository tag : Str) : CachedDigestResult :=
  let key := dockerKey repository tag
  match lookupAL key digests with
  | some val =>
    if val.IsExpired now then
      getDigestRefresh o now tokens digests repository tag key
    else
      { result := .ok val, tokens := tokens, digests := digests, calls := [] }
  | none => getDigestRefresh o now tokens digests repository tag key

/-- Condition under which GetDigestCached bypasses the digest cache:
no entry for the key, or an expired one. -/
def digestCacheMiss (now : Int) (digests : List (Str × DockerImageDigest))
    (key : Str) : Bool :=
  match lookupAL key digests with
  | none => true
  | some val => val.IsExpired now

/-- Condition under which GetDigestCached renews the token: no entry
for the repository, or an expired one. -/
def tokenCacheMiss (now : Int) (tokens : List (Str × DockerHubToken))
    (repository : Str) : Bool :=
  match lookupAL repository tokens with
  | none => true
  | some val => val.IsExpired now

/-- Embeds the bitbucket contracts AccessToken as used by the client:
its AccessToken field carries the bearer token string. -/
structure BbAccessToken where
  accessToken : Str
deriving DecidableEq

/-- Go zero value of BbAccessToken, the value of the named return on an
early error exit of GetAccessToken. -/
def zeroBbAccessToken : BbAccessToken := { accessToken := [] }

/-- Embeds the slice of push changes of a bitbucket RepositoryPushEvent;
only the hash of the new target of a change is read by the client. -/
structure BbPushChange where
  newTargetHash : Str
deriving DecidableEq

/-- Embeds the bitbucket contracts RepositoryPushEvent as used by the
client: the repository full name and the list of push changes. -/
structure RepositoryPushEvent where
  repositoryFullName : Str
  pushChanges : List BbPushChange
deriving DecidableEq

/-- Hash read by GetEstafetteManifest from Changes[0].New.Target.Hash
(Go panics on an empty slice; the model reads the head or empty). -/
def headChangeHash (ev : RepositoryPushEvent) : Str :=
  match ev.pushChanges with
  | [] => []
  | c :: _ => c.newTargetHash

/-- Span name opened by GetAccessToken. -/
def accessTokenSpanName : Str := "BitbucketApi::GetAccessToken".toList

/-- Span name opened by GetEstafetteManifest. -/
def manifestSpanName : Str := "BitbucketApi::GetEstafetteManifest".toList

/-- Prometheus target label used by both bitbucket client calls. -/
def bitbucketTarget : Str := "bitbucket".toList

/-- Token endpoint of GetAccessToken. -/
def bitbucketTokenURL : Str := "https://bitbucket.org/site/oauth2/access_token".toList

/-- Manifest URL built by GetEstafetteManifest from the event: the fixed
well-known file .estafette.yaml at the pushed revision. -/
def bitbucketManifestURL (ev : RepositoryPushEvent) : Str :=
  "https://api.bitbucket.org/2.0/repositories/".toList ++ ev.repositoryFullName
    ++ "/src/".toList ++ headChangeHash ev ++ "/.estafette.yaml".toList

/-- Embeds apiClientImpl.GetAccessToken: opens a span (closed by defer
on every exit), increments the outbound counter with target bitbucket,
POSTs the client-credentials form, and unmarshals the response body into
an AccessToken; doResult is the outcome of client.Do for this exchange
and parseToken the outcome of json.Unmarshal on the body. Early error
exits return the zero-valued token with the error. -/
def GetAccessToken (doResult : Except Err HttpResponse)
    (parseToken : Str → Except Err BbAccessToken) :
    (BbAccessToken × Option Err) × List Effect :=
  let before := [Effect.spanStart accessTokenSpanName,
    Effect.counterInc bitbucketTarget,
    Effect.httpRequest "POST".toList bitbucketTokenURL]
  let after := [Effect.spanFinish accessTokenSpanName]
  match doResult with
  | .error e => ((zeroBbAccessToken, some e), before ++ after)
  | .ok response =>
    match response.body with
    | .error e => ((zeroBbAccessToken, some e), before ++ after)
    | .ok body =>
      match parseToken body with
      | .error e => ((zeroBbAccessToken, some e), before ++ after)
      | .ok accessToken => ((accessToken, none), before ++ after)

/-- Base URL replaced by GetAuthenticatedRepositoryURL. -/
def bitbucketBaseURL : Str := "https://bitbucket.org".toList

/-- Authority with the token embedded, substituted in by
GetAuthenticatedRepositoryURL. -/
def bitbucketAuthURL (accessToken : BbAccessToken) : Str :=
  "https://x-token-auth:".toList ++ accessToken.accessToken ++ "@bitbucket.org".toList

/-- Embeds apiClientImpl.GetAuthenticatedRepositoryURL: a strings.Replace
of every occurrence of the bitbucket base URL by the authority carrying
x-token-auth and the token; the error of the (url, err) pair is never
set, and the function performs no effect (no network call). -/
def GetAuthenticatedRepositoryURL (accessToken : BbAccessToken) (htmlURL : Str) :
    (Str × Option Err) × List Effect :=
  ((goReplaceAll bitbucketBaseURL (bitbucketAuthURL accessToken) htmlURL, none), [])

/-- Embeds apiClientImpl.GetEstafetteManifest: opens a span (closed by
defer on every exit), increments the outbound counter with target
bitbucket, GETs the manifest URL, and interprets the response: any
status code other than 404 sets exists and returns the body as the
manifest; a 404 leaves exists false with no error. The result triple is
(exists, manifest, err) matching the named Go returns. -/
def GetEstafetteManifest (doResult : Except Err HttpResponse)
    (accessToken : BbAccessToken) (ev : RepositoryPushEvent) :
    (Bool × Str × Option Err) × List Effect :=
  let before := [Effect.spanStart manifestSpanName,
    Effect.counterInc bitbucketTarget,
    Effect.httpRequest "GET".toList (bitbucketManifestURL ev)]
  let after := [Effect.spanFinish manifestSpanName]
  match doResult with
  | .error e => ((false, [], some e), before ++ after)
  | .ok response =>
    match response.body with
    | .error e => ((false, [], some e), before ++ after)
    | .ok body =>
      if response.statusCode ≠ 404 then
        ((true, body, none), before ++ after)
      else
        ((false, [], none), before ++ after)

/-- Embeds the github Installation payload fragment: the installation
identifier used for credential acquisition. -/
structure GhInstallation where
  id : Int
deriving DecidableEq

/-- Embeds the github Repository payload fragment: full name and HTML
clone URL. -/
structure GhRepository where
  fullName : Str
  htmlURL : Str
deriving DecidableEq

/-- Embeds the github PushEvent payload as read by the worker: the ref,
the After commit hash, the installation and the repository. -/
structure PushEvent where
  ref : Str
  after : Str
  installation : GhInstallation
  repository : GhRepository
deriving DecidableEq

/-- Embeds the github AccessToken as read by the worker: its Token field. -/
structure GhAccessToken where
  token : Str
deriving DecidableEq

/-- Fixed environment variable key under which the worker exposes the
github credential. -/
def githubTokenEnvKey : Str := "ESTAFETTE_GITHUB_API_TOKEN".toList

/-- Branch reference marker checked and stripped by the worker. -/
def refsHeadsMarker : Str := "refs/heads/".toList

/-- Embeds estafette.CiBuilderParams as constructed by the github
worker: the five fields the worker sets (the remaining fields of the Go
struct are left at their zero values and never read on this path). -/
structure CiBuilderParams where
  repoFullName : Str
  repoURL : Str
  repoBranch : Str
  repoRevision : Str
  environmentVariables : List (Str × Str)
deriving DecidableEq

/-- Oracle supplying the outcomes of the collaborator calls the worker
makes through its APIClient and CiBuilderClient interfaces (the github
client implementation and the builder client live outside the worker). -/
structure GithubAPI where
  getInstallationToken : Int → Except Err GhAccessToken
  getEstafetteManifest : GhAccessToken → PushEvent → Except Err (Bool × Str)
  getAuthenticatedRepositoryURL : GhAccessToken → Str → Except Err Str
  createCiBuilderJob : CiBuilderParams → Except Err Str

/-- Records the externally observable collaborator calls of one run of
the worker pipeline, in order. -/
inductive WorkerCall where
  | installationTokenCall (installationID : Int)
  | manifestCall
  | repositoryURLCall
  | builderJobCall (params : CiBuilderParams)
deriving DecidableEq

/-- Embeds eventWorkerImpl.CreateJobForGithubPush, observed through the
trace of collaborator calls it performs: filter on the branch ref, fetch
the installation token, fetch the manifest (abandoning when it does not
exist), build the authenticated URL, construct the CiBuilderParams and
submit the builder job exactly once; every failure logs and returns. -/
def CreateJobForGithubPush (api : GithubAPI) (pushEvent : PushEvent) :
    List WorkerCall :=
  if ¬ refsHeadsMarker.isPrefixOf pushEvent.ref then []
  else
    match api.getInstallationToken pushEvent.installation.id with
    | .error _ => [.installationTokenCall pushEvent.installation.id]
    | .ok accessToken =>
      match api.getEstafetteManifest accessToken pushEvent with
      | .error _ => [.installationTokenCall pushEvent.installation.id, .manifestCall]
      | .ok (manifestExists, _manifest) =>
        if ¬ manifestExists then
          [.installationTokenCall pushEvent.installation.id, .manifestCall]
        else
          match api.getAuthenticatedRepositoryURL accessToken pushEvent.repository.htmlURL with
          | .error _ =>
            [.installationTokenCall pushEvent.installation.id, .manifestCall,
             .repositoryURLCall]
          | .ok authenticatedRepositoryURL =>
            let ciBuilderParams : CiBuilderParams :=
              { repoFullName := pushEvent.repository.fullName,
                repoURL := authenticatedRepositoryURL,
                repoBranch := goReplaceOnce refsHeadsMarker [] pushEvent.ref,
                repoRevision := pushEvent.after,
                environmentVariables := [(githubTokenEnvKey, accessToken.token)] }
            [.installationTokenCall pushEvent.installation.id, .manifestCall,
             .repositoryURLCall, .builderJobCall ciBuilderParams]

/-- Parameters of the job-submission calls in a worker call trace. -/
def builderJobCalls (calls : List WorkerCall) : List CiBuilderParams :=
  calls.filterMap fun c =>
    match c with
    | .builderJobCall p => some p
    | _ => none

/-- State of one provider's event worker pool: the events still queued
in the channel, the number of listener goroutines sitting at the select
of ListenToEventChannels, and the per-event pipelines that have been
spawned and have not yet completed. -/
structure WorkerPoolState where
  queue : List PushEvent
  listeners : Nat
  inFlight : List PushEvent
deriving DecidableEq

/-- Small-step transitions of the worker pool. The dispatch rule follows
ListenToEventChannels: a listener receiving a push event starts
CreateJobForGithubPush inside a freshly spawned goroutine and returns to
the select immediately, so dispatching consumes no listener capacity.
The complete rule retires a spawned pipeline whenever it finishes.
The listener count itself is fixed; that the dispatcher starts a fixed
number of listeners (the max workers setting) is modelled from the spec,
the dispatcher construction not being among the sources. -/
inductive WorkerPoolStep : WorkerPoolState → WorkerPoolState → Prop
  | dispatch (e : PushEvent) (q : List PushEvent) (n : Nat) (fl : List PushEvent)
      (hn : 1 ≤ n) :
      WorkerPoolStep { queue := e :: q, listeners := n, inFlight := fl }
        { queue := q, listeners := n, inFlight := e :: fl }
  | complete (e : PushEvent) (q : List PushEvent) (n : Nat)
      (pre post : List PushEvent) :
      WorkerPoolStep { queue := q, listeners := n, inFlight := pre ++ e :: post }
        { queue := q, listeners := n, inFlight := pre ++ post }

/-- Reachability in the worker pool: zero or more small steps. -/
def WorkerPoolReachable : WorkerPoolState → WorkerPoolState → Prop :=
  Relation.ReflTransGen WorkerPoolStep

/-- Concrete push event on the master branch, used as a test input. -/
def ghEventA : PushEvent :=
  { ref := "refs/heads/master".toList,
    after := "9f3c2b1a".toList,
    installation := { id := 15 },
    repository := { fullName := "estafette/estafette-ci-api".toList,
                    htmlURL := "https://github.com/estafette/estafette-ci-api".toList } }

/-- Concrete push event on the develop branch, used as a test input. -/
def ghEventB : PushEvent :=
  { ref := "refs/heads/develop".toList,
    after := "0d4e5f6a".toList,
    installation := { id := 15 },
    repository := { fullName := "estafette/estafette-ci-api".toList,
                    htmlURL := "https://github.com/estafette/estafette-ci-api".toList } }

/-- Concrete push event for a tag reference, used as a test input. -/
def ghEventTag : PushEvent :=
  { ref := "refs/tags/v1.0.0".toList,
    after := "77aa88bb".toList,
    installation := { id := 15 },
    repository := { fullName := "estafette/estafette-ci-api".toList,
                    htmlURL := "https://github.com/estafette/estafette-ci-api".toList } }

/-- Oracle on which every collaborator call of the github worker
succeeds, used as a test input. -/
def ghAPIOk : GithubAPI :=
  { getInstallationToken := fun _ => .ok { token := "v1.installationtoken".toList },
    getEstafetteManifest := fun _ _ => .ok (true, "labels: team".toList),
    getAuthenticatedRepositoryURL := fun _ u => .ok u,
    createCiBuilderJob := fun _ => .ok "build-job-1".toList }

/-- Docker Hub oracle on which both fetches succeed, used as a test
input. -/
def dockerOracleOk : DockerHubOracle :=
  { getToken := fun _ => .ok { token := "bearer-1".toList, expiresIn := 300, issuedAt := 0 },
    getDigestHeader := fun _ _ _ => .ok "sha256:a1b2c3".toList }

/-- Docker Hub oracle on which the digest fetch fails, used as a test
input. -/
def dockerOracleDigestFail : DockerHubOracle :=
  { getToken := fun _ => .ok { token := "bearer-1".toList, expiresIn := 300, issuedAt := 0 },
    getDigestHeader := fun _ _ _ => .error "registry unavailable".toList }

/-- Concrete bitbucket push event, used as a test input. -/
def bbEventA : RepositoryPushEvent :=
  { repositoryFullName := "estafette/estafette-ci-api".toList,
    pushChanges := [{ newTargetHash := "9f3c2b1a".toList }] }

theorem goReplaceOnce_strip (old new s : Str) (hne : old ≠ [])
    (hpre : old.isPrefixOf s = true) :
    goReplaceOnce old new s = new ++ s.drop old.length := by
  match s with
  | [] =>
    exact absurd ( List.prefix_nil.mp ( List.isPrefixOf_iff_prefix.mp hpre)) hne
  | c :: cs =>
    rw [goReplaceOnce, if_pos hpre]

theorem goReplaceAll_of_not_contains (old new : Str) (s : Str)
    (hnc : containsSub old s = false) :
    goReplaceAll old new s = s := by
  induction s with
  | nil => rw [goReplaceAll]
  | cons c cs ih =>
    rw [containsSub, Bool.or_eq_false_iff] at hnc
    rw [goReplaceAll, dif_neg, ih hnc.2]
    intro hcon
    rw [hnc.1] at hcon
    exact Bool.false_ne_true hcon.1

theorem goReplaceAll_strip_front (old new rest : Str) (hne : old ≠ [])
    (hnc : containsSub old rest = false) :
    goReplaceAll old new (old ++ rest) = new ++ rest := by
  match old, hne with
  | o :: os, hne =>
    have hpre : (o :: os).isPrefixOf (o :: (os ++ rest)) = true := by
      rw [← List.cons_append]
      exact List.isPrefixOf_iff_prefix.mpr ( List.prefix_append _ _)
    rw [List.cons_append, goReplaceAll, dif_pos ⟨hpre, hne⟩, ← List.cons_append,
      List.drop_left, goReplaceAll_of_not_contains _ _ _ hnc]

/-- Claim C3: for every push event whose ref does not start with the
branch reference marker, the worker performs no collaborator call at
all — no credential fetch, no manifest fetch, no job submission; it
returns immediately after the filter. -/
theorem createJobForGithubPush_skips_non_branch_refs (api : GithubAPI)
    (pushEvent : PushEvent)
    (href : refsHeadsMarker.isPrefixOf pushEvent.ref = false) :
    CreateJobForGithubPush api pushEvent = [] := by
  simp [CreateJobForGithubPush, href]

/-- Witness for claim C3 at a concrete tag-reference event. -/
theorem createJobForGithubPush_skips_non_branch_refs_witness :
    refsHeadsMarker.isPrefixOf ghEventTag.ref = false ∧
    CreateJobForGithubPush ghAPIOk ghEventTag = [] :=
  ⟨by decide,
   createJobForGithubPush_skips_non_branch_refs ghAPIOk ghEventTag (by decide)⟩

/-- Claim C1: for every push event on a branch ref for which the token
fetch succeeds, the manifest fetch succeeds with an existing manifest,
and the clone URL construction succeeds, the worker submits exactly one
builder job, whose branch is the ref with the branch marker stripped,
whose revision is the event's After hash, and whose environment
variables carry the token under the fixed key. -/
theorem createJobForGithubPush_submits_one_job (api : GithubAPI)
    (pushEvent : PushEvent) (tok : GhAccessToken) (mani authURL : Str)
    (href : refsHeadsMarker.isPrefixOf pushEvent.ref = true)
    (htok : api.getInstallationToken pushEvent.installation.id = .ok tok)
    (hman : api.getEstafetteManifest tok pushEvent = .ok (true, mani))
    (hurl : api.getAuthenticatedRepositoryURL tok pushEvent.repository.htmlURL
      = .ok authURL) :
    ∃ p : CiBuilderParams,
      builderJobCalls (CreateJobForGithubPush api pushEvent) = [p] ∧
      p.repoBranch = pushEvent.ref.drop refsHeadsMarker.length ∧
      p.repoRevision = pushEvent.after ∧
      lookupAL githubTokenEnvKey p.environmentVariables = some tok.token := by
  have hb : goReplaceOnce refsHeadsMarker [] pushEvent.ref
      = pushEvent.ref.drop refsHeadsMarker.length := by
    rw [goReplaceOnce_strip _ _ _ (by decide) href, List.nil_append]
  refine ⟨{ repoFullName := pushEvent.repository.fullName, repoURL := authURL,
            repoBranch := goReplaceOnce refsHeadsMarker [] pushEvent.ref,
            repoRevision := pushEvent.after,
            environmentVariables := [(githubTokenEnvKey, tok.token)] },
          ?_, hb, rfl, ?_⟩
  · simp [CreateJobForGithubPush, href, htok, hman, hurl, builderJobCalls]
  · simp [lookupAL]

/-- Witness for claim C1 at a concrete branch push with an all-success
oracle. -/
theorem createJobForGithubPush_submits_one_job_witness :
    refsHeadsMarker.isPrefixOf ghEventA.ref = true ∧
    ghAPIOk.getInstallationToken ghEventA.installation.id
      = .ok { token := "v1.installationtoken".toList } ∧
    ghAPIOk.getEstafetteManifest { token := "v1.installationtoken".toList } ghEventA
      = .ok (true, "labels: team".toList) ∧
    ghAPIOk.getAuthenticatedRepositoryURL { token := "v1.installationtoken".toList }
      ghEventA.repository.htmlURL = .ok ghEventA.repository.htmlURL ∧
    (∃ p : CiBuilderParams,
      builderJobCalls (CreateJobForGithubPush ghAPIOk ghEventA) = [p] ∧
      p.repoBranch = ghEventA.ref.drop refsHeadsMarker.length ∧
      p.repoRevision = ghEventA.after ∧
      lookupAL githubTokenEnvKey p.environmentVariables
        = some ("v1.installationtoken".toList : Str)) :=
  ⟨by decide, rfl, rfl, rfl,
   createJobForGithubPush_submits_one_job ghAPIOk ghEventA
     { token := "v1.installationtoken".toList } "labels: team".toList
     ghEventA.repository.htmlURL (by decide) rfl rfl rfl⟩

theorem getDigestCached_miss_eq (o : DockerHubOracle) (now : Int)
    (tokens : List (Str × DockerHubToken)) (digests : List (Str × DockerImageDigest))
    (repository tag : Str)
    (hmiss : digestCacheMiss now digests (dockerKey repository tag) = true) :
    GetDigestCached o now tokens digests repository tag
      = getDigestRefresh o now tokens digests repository tag (dockerKey repository tag) := by
  unfold GetDigestCached
  unfold digestCacheMiss at hmiss
  cases hd : lookupAL (dockerKey repository tag) digests with
  | none => simp [hd]
  | some val =>
    rw [hd] at hmiss
    simp only at hmiss
    simp [hd, hmiss]

theorem getDigestRefresh_token_error (o : DockerHubOracle) (now : Int)
    (tokens : List (Str × DockerHubToken)) (digests : List (Str × DockerImageDigest))
    (repository tag key : Str) (e : Err)
    (htmiss : tokenCacheMiss now tokens repository = true)
    (herr : o.getToken repository = .error e) :
    getDigestRefresh o now tokens digests repository tag key
      = { result := .error e, tokens := tokens, digests := digests,
          calls := [.tokenFetch repository] } := by
  unfold getDigestRefresh
  unfold tokenCacheMiss at htmiss
  simp [htmiss, GetToken, herr]

theorem getDigestRefresh_digest_error (o : DockerHubOracle) (now : Int)
    (tokens : List (Str × DockerHubToken)) (digests : List (Str × DockerImageDigest))
    (repository tag key : Str) (e : Err)
    (hstep : tokenCacheMiss now tokens repository = true →
      ∃ t, o.getToken repository = .ok t)
    (hdig : ∀ t, o.getDigestHeader t repository tag = .error e) :
    (getDigestRefresh o now tokens digests repository tag key).result = .error e ∧
    (getDigestRefresh o now tokens digests repository tag key).digests = digests := by
  unfold getDigestRefresh
  unfold tokenCacheMiss at hstep
  by_cases hr : (match lookupAL repository tokens with
    | none => true
    | some val => val.IsExpired now) = true
  · obtain ⟨t, ht⟩ := hstep hr
    simp [hr, GetToken, ht, getDigestStep, GetDigest, hdig]
  · simp [Bool.of_not_eq_true hr, getDigestStep, GetDigest, hdig]

/-- Claim C5: when the cached digest lookup must refresh and one of the
two fetches fails (the token fetch, or the digest fetch whatever token
it is handed), the fetch error is the result handed to the caller and
the digest cache — in particular any previously cached entry for the
key — is left exactly as it was, so a later call will retry. -/
theorem getDigestCached_failure_keeps_digests (o : DockerHubOracle) (now : Int)
    (tokens : List (Str × DockerHubToken)) (digests : List (Str × DockerImageDigest))
    (repository tag : Str) (e : Err)
    (hmiss : digestCacheMiss now digests (dockerKey repository tag) = true)
    (hfail :
      (tokenCacheMiss now tokens repository = true ∧
        o.getToken repository = .error e) ∨
      ((tokenCacheMiss now tokens repository = true →
          ∃ t, o.getToken repository = .ok t) ∧
        ∀ t, o.getDigestHeader t repository tag = .error e)) :
    (GetDigestCached o now tokens digests repository tag).result = .error e ∧
    (GetDigestCached o now tokens digests repository tag).digests = digests := by
  rw [getDigestCached_miss_eq o now tokens digests repository tag hmiss]
  cases hfail with
  | inl h =>
    rw [getDigestRefresh_token_error o now tokens digests repository tag
      (dockerKey repository tag) e h.1 h.2]
    exact ⟨rfl, rfl⟩
  | inr h =>
    exact getDigestRefresh_digest_error o now tokens digests repository tag
      (dockerKey repository tag) e h.1 h.2

/-- Witness for claim C5: empty caches and an oracle whose digest fetch
fails. -/
theorem getDigestCached_failure_keeps_digests_witness :
    digestCacheMiss 0 [] (dockerKey "library/alpine".toList "latest".toList) = true ∧
    (GetDigestCached dockerOracleDigestFail 0 [] []
        "library/alpine".toList "latest".toList).result
      = .error "registry unavailable".toList ∧
    (GetDigestCached dockerOracleDigestFail 0 [] []
        "library/alpine".toList "latest".toList).digests = [] := by
  refine ⟨rfl, ?_⟩
  exact getDigestCached_failure_keeps_digests dockerOracleDigestFail 0 [] []
    "library/alpine".toList "latest".toList "registry unavailable".toList rfl
    (Or.inr ⟨fun _ => ⟨_, rfl⟩, fun _ => rfl⟩)

/-- Claim C10: when the digest cache needs a refresh, the token cache
also misses, the token fetch succeeds and the digest fetch then fails,
the call returns the digest error, yet the token cache has already been
mutated with the freshly fetched token; only the digest cache is left
unchanged. -/
theorem getDigestCached_token_mutation_on_digest_failure (o : DockerHubOracle)
    (now : Int) (tokens : List (Str × DockerHubToken))
    (digests : List (Str × DockerImageDigest)) (repository tag : Str)
    (tok : DockerHubToken) (e : Err)
    (hmiss : digestCacheMiss now digests (dockerKey repository tag) = true)
    (htmiss : tokenCacheMiss now tokens repository = true)
    (htok : o.getToken repository = .ok tok)
    (hdig : o.getDigestHeader tok repository tag = .error e) :
    (GetDigestCached o now tokens digests repository tag).result = .error e ∧
    lookupAL repository (GetDigestCached o now tokens digests repository tag).tokens
      = some tok ∧
    (GetDigestCached o now tokens digests repository tag).digests = digests := by
  rw [getDigestCached_miss_eq o now tokens digests repository tag hmiss]
  unfold getDigestRefresh
  unfold tokenCacheMiss at htmiss
  simp only [htmiss, if_true, GetToken, htok]
  unfold getDigestStep
  simp [insertAL, lookupAL, GetDigest, hdig]

/-- Witness for claim C10: empty caches, a succeeding token fetch and a
failing digest fetch. -/
theorem getDigestCached_token_mutation_on_digest_failure_witness :
    digestCacheMiss 0 [] (dockerKey "library/alpine".toList "latest".toList) = true ∧
    tokenCacheMiss 0 [] "library/alpine".toList = true ∧
    dockerOracleDigestFail.getToken "library/alpine".toList
      = .ok { token := "bearer-1".toList, expiresIn := 300, issuedAt := 0 } ∧
    dockerOracleDigestFail.getDigestHeader
      { token := "bearer-1".toList, expiresIn := 300, issuedAt := 0 }
      "library/alpine".toList "latest".toList = .error "registry unavailable".toList ∧
    ((GetDigestCached dockerOracleDigestFail 0 [] []
        "library/alpine".toList "latest".toList).result
      = .error "registry unavailable".toList ∧
    lookupAL "library/alpine".toList
      (GetDigestCached dockerOracleDigestFail 0 [] []
        "library/alpine".toList "latest".toList).tokens
      = some { token := "bearer-1".toList, expiresIn := 300, issuedAt := 0 } ∧
    (GetDigestCached dockerOracleDigestFail 0 [] []
        "library/alpine".toList "latest".toList).digests = []) :=
  ⟨rfl, rfl, rfl, rfl,
   getDigestCached_token_mutation_on_digest_failure dockerOracleDigestFail 0 [] []
     "library/alpine".toList "latest".toList
     { token := "bearer-1".toList, expiresIn := 300, issuedAt := 0 }
     "registry unavailable".toList rfl rfl rfl rfl⟩

/-- Claim C4: starting from empty caches, a first cached digest lookup
performs exactly one token fetch and one digest fetch; a second lookup
for the same repository and tag while the stored digest is within its
300-second validity performs no fetch at all and returns the stored
digest; a lookup after that validity has elapsed performs exactly one
more digest fetch. -/
theorem getDigestCached_fetch_counts (o : DockerHubOracle) (repository tag : Str)
    (now1 now2 now3 : Int) (tok : DockerHubToken) (hdr : Str)
    (htok : o.getToken repository = .ok tok)
    (hhdr : ∀ t, o.getDigestHeader t repository tag = .ok hdr)
    (h2 : now2 ≤ now1 + 300)
    (h3 : now1 + 300 < now3) :
    (tokenFetchCount (GetDigestCached o now1 [] [] repository tag).calls = 1 ∧
     digestFetchCount (GetDigestCached o now1 [] [] repository tag).calls = 1) ∧
    ((GetDigestCached o now2 (GetDigestCached o now1 [] [] repository tag).tokens
        (GetDigestCached o now1 [] [] repository tag).digests repository tag).calls
      = [] ∧
     (GetDigestCached o now2 (GetDigestCached o now1 [] [] repository tag).tokens
        (GetDigestCached o now1 [] [] repository tag).digests repository tag).result
      = (GetDigestCached o now1 [] [] repository tag).result) ∧
    digestFetchCount
      (GetDigestCached o now3
        (GetDigestCached o now2 (GetDigestCached o now1 [] [] repository tag).tokens
          (GetDigestCached o now1 [] [] repository tag).digests repository tag).tokens
        (GetDigestCached o now2 (GetDigestCached o now1 [] [] repository tag).tokens
          (GetDigestCached o now1 [] [] repository tag).digests repository tag).digests
        repository tag).calls = 1 := by
  have e1 : GetDigestCached o now1 [] [] repository tag
      = { result := .ok { digest := hdr, expiresIn := 300, fetchedAt := now1 },
          tokens := [(repository, tok)],
          digests := [(dockerKey repository tag,
            { digest := hdr, expiresIn := 300, fetchedAt := now1 })],
          calls := [.tokenFetch repository, .digestFetch repository tag] } := by
    unfold GetDigestCached getDigestRefresh getDigestStep
    simp [lookupAL, GetToken, htok, insertAL, GetDigest, hhdr]
  have hnotexp : DockerImageDigest.IsExpired
      { digest := hdr, expiresIn := 300, fetchedAt := now1 } now2 = false := by
    simp [DockerImageDigest.IsExpired, DockerImageDigest.ExpiresAt]
    omega
  have e2 : GetDigestCached o now2 [(repository, tok)]
      [(dockerKey repository tag, { digest := hdr, expiresIn := 300, fetchedAt := now1 })]
      repository tag
      = { result := .ok { digest := hdr, expiresIn := 300, fetchedAt := now1 },
          tokens := [(repository, tok)],
          digests := [(dockerKey repository tag,
            { digest := hdr, expiresIn := 300, fetchedAt := now1 })],
          calls := [] } := by
    unfold GetDigestCached
    simp [lookupAL, hnotexp]
  have hexp3 : DockerImageDigest.IsExpired
      { digest := hdr, expiresIn := 300, fetchedAt := now1 } now3 = true := by
    simp [DockerImageDigest.IsExpired, DockerImageDigest.ExpiresAt]
    omega
  have e3 : digestFetchCount (GetDigestCached o now3 [(repository, tok)]
      [(dockerKey repository tag, { digest := hdr, expiresIn := 300, fetchedAt := now1 })]
      repository tag).calls = 1 := by
    unfold GetDigestCached getDigestRefresh getDigestStep
    by_cases ht : tok.IsExpired now3 = true
    · simp [lookupAL, hexp3, ht, GetToken, htok, insertAL, GetDigest, hhdr,
        digestFetchCount, DockerCall.isDigestFetch]
    · simp [lookupAL, hexp3, Bool.of_not_eq_true ht, GetDigest, hhdr,
        digestFetchCount, DockerCall.isDigestFetch]
  refine ⟨?_, ?_, ?_⟩
  · rw [e1]
    exact ⟨rfl, rfl⟩
  · simp only [e1, e2]
    exact ⟨trivial, trivial⟩
  · simp only [e1, e2]
    exact e3

/-- Witness for claim C4 at concrete times zero, one hundred and four
hundred with an all-success oracle. -/
theorem getDigestCached_fetch_counts_witness :
    dockerOracleOk.getToken "library/alpine".toList
      = .ok { token := "bearer-1".toList, expiresIn := 300, issuedAt := 0 } ∧
    (∀ t, dockerOracleOk.getDigestHeader t "library/alpine".toList "latest".toList
      = .ok "sha256:a1b2c3".toList) ∧
    (100 : Int) ≤ 0 + 300 ∧ (0 : Int) + 300 < 400 ∧
    (tokenFetchCount (GetDigestCached dockerOracleOk 0 [] [] "library/alpine".toList
        "latest".toList).calls = 1 ∧
     digestFetchCount (GetDigestCached dockerOracleOk 0 [] [] "library/alpine".toList
        "latest".toList).calls = 1) :=
  ⟨rfl, fun _ => rfl, by decide, by decide,
   (getDigestCached_fetch_counts dockerOracleOk "library/alpine".toList "latest".toList
     0 100 400 { token := "bearer-1".toList, expiresIn := 300, issuedAt := 0 }
     "sha256:a1b2c3".toList rfl (fun _ => rfl) (by decide) (by decide)).1⟩

/-- Claim C2 (code check): the bitbucket manifest fetch maps a 404
response to exists false with no error, as the claim states; but it
maps a 500 response — a non-success status — to exists true with the
error page body as the manifest text and no error, where the claim
requires an error. -/
theorem getEstafetteManifest_status_handling :
    (GetEstafetteManifest
        (.ok { statusCode := 404, body := .ok "not found".toList })
        zeroBbAccessToken bbEventA).1 = (false, [], none) ∧
    (GetEstafetteManifest
        (.ok { statusCode := 500, body := .ok "internal server error".toList })
        zeroBbAccessToken bbEventA).1
      = (true, "internal server error".toList, none) := by
  exact ⟨rfl, rfl⟩

/-- Claim C6 (code check): with a single listener — the max workers
setting at one — and two queued events, the pool reaches a state with
two pipelines in flight and the listener still free: dispatching spawns
each pipeline in its own goroutine without occupying the listener, so
the max workers setting does not bound the events concurrently in
flight and a worker does not finish one pipeline before dequeuing the
next event. -/
theorem workerPool_inflight_exceeds_listeners :
    WorkerPoolReachable
      { queue := [ghEventA, ghEventB], listeners := 1, inFlight := [] }
      { queue := [], listeners := 1, inFlight := [ghEventB, ghEventA] } ∧
    ({ queue := [], listeners := 1,
       inFlight := [ghEventB, ghEventA] } : WorkerPoolState).listeners
      < ({ queue := [], listeners := 1,
           inFlight := [ghEventB, ghEventA] } : WorkerPoolState).inFlight.length := by
  constructor
  · exact Relation.ReflTransGen.head
      (WorkerPoolStep.dispatch ghEventA [ghEventB] 1 [] (by omega))
      (Relation.ReflTransGen.head
        (WorkerPoolStep.dispatch ghEventB [] 1 [ghEventA] (by omega))
        Relation.ReflTransGen.refl)
  · show 1 < 2
    omega

/-- Claim C8 (counterexample): a token issued at time zero with a
validity of ten seconds has expiry time ten, yet at clock time ten
exactly it is not classified expired, though the claim requires expiry
at that instant. -/
theorem isExpired_boundary_counterexample :
    DockerHubToken.ExpiresAt
      { token := "bearer-1".toList, expiresIn := 10, issuedAt := 0 } = 10 ∧
    DockerHubToken.IsExpired
      { token := "bearer-1".toList, expiresIn := 10, issuedAt := 0 } 10 = false := by
  exact ⟨rfl, rfl⟩

/-- Claim C8 (amended): for every credential and every cached digest,
the expiry time is the issue or fetch time plus the validity duration,
and the value is classified expired exactly when the clock is strictly
past that time; at the expiry instant itself it is not yet expired. -/
theorem expiry_classification (t : DockerHubToken) (d : DockerImageDigest)
    (now : Int) :
    t.ExpiresAt = t.issuedAt + t.expiresIn ∧
    (t.IsExpired now = true ↔ t.ExpiresAt < now) ∧
    t.IsExpired t.ExpiresAt = false ∧
    d.ExpiresAt = d.fetchedAt + d.expiresIn ∧
    (d.IsExpired now = true ↔ d.ExpiresAt < now) ∧
    d.IsExpired d.ExpiresAt = false := by
  refine ⟨rfl, ?_, ?_, rfl, ?_, ?_⟩
  · simp [DockerHubToken.IsExpired]
  · simp [DockerHubToken.IsExpired]
  · simp [DockerImageDigest.IsExpired]
  · simp [DockerImageDigest.IsExpired]

/-- Claim C7 (counterexample): the Docker Hub token fetch performs an
outbound API call whose effect trace contains no outbound-call counter
increment and no tracing span at all, so not every outbound call is
instrumented as claimed. -/
theorem getToken_without_instrumentation :
    httpRequestCount (GetToken dockerOracleOk "library/alpine".toList).2 = 1 ∧
    counterIncCount (GetToken dockerOracleOk "library/alpine".toList).2 = 0 ∧
    spanStartCount (GetToken dockerOracleOk "library/alpine".toList).2 = 0 ∧
    spanFinishCount (GetToken dockerOracleOk "library/alpine".toList).2 = 0 := by
  exact ⟨rfl, rfl, rfl, rfl⟩

/-- Claim C7 (amended): whatever the call outcome, each bitbucket client
call increments the outbound counter exactly once, tagged bitbucket, and
is bracketed by exactly one tracing span; the Docker Hub client's token
fetch performs its outbound request with neither a counter increment nor
a span, and its digest fetch is bracketed by one span but increments no
counter. -/
theorem outbound_call_instrumentation (doTok doMan : Except Err HttpResponse)
    (pt : Str → Except Err BbAccessToken) (btok : BbAccessToken)
    (ev : RepositoryPushEvent) (o : DockerHubOracle) (now : Int)
    (dtok : DockerHubToken) (repository tag : Str) :
    (counterIncCountFor bitbucketTarget (GetAccessToken doTok pt).2 = 1 ∧
      counterIncCount (GetAccessToken doTok pt).2 = 1 ∧
      spanBracketed accessTokenSpanName (GetAccessToken doTok pt).2) ∧
    (counterIncCountFor bitbucketTarget (GetEstafetteManifest doMan btok ev).2 = 1 ∧
      counterIncCount (GetEstafetteManifest doMan btok ev).2 = 1 ∧
      spanBracketed manifestSpanName (GetEstafetteManifest doMan btok ev).2) ∧
    (httpRequestCount (GetToken o repository).2 = 1 ∧
      counterIncCount (GetToken o repository).2 = 0 ∧
      spanStartCount (GetToken o repository).2 = 0) ∧
    (counterIncCount (GetDigest o now dtok repository tag).2 = 0 ∧
      spanBracketed digestSpanName (GetDigest o now dtok repository tag).2) := by
  have hAT : (GetAccessToken doTok pt).2
      = [Effect.spanStart accessTokenSpanName, Effect.counterInc bitbucketTarget,
         Effect.httpRequest "POST".toList bitbucketTokenURL,
         Effect.spanFinish accessTokenSpanName] := by
    rcases doTok with e | ⟨sc, body⟩
    · rfl
    · rcases body with e | b
      · rfl
      · rcases hpb : pt b with e | t <;> simp [GetAccessToken, hpb]
  have hEM : (GetEstafetteManifest doMan btok ev).2
      = [Effect.spanStart manifestSpanName, Effect.counterInc bitbucketTarget,
         Effect.httpRequest "GET".toList (bitbucketManifestURL ev),
         Effect.spanFinish manifestSpanName] := by
    rcases doMan with e | ⟨sc, body⟩
    · rfl
    · rcases body with e | b
      · rfl
      · simp only [GetEstafetteManifest]
        split <;> rfl
  have hGD : (GetDigest o now dtok repository tag).2
      = [Effect.spanStart digestSpanName,
         Effect.httpRequest "HEAD".toList (dockerDigestURL repository tag),
         Effect.spanFinish digestSpanName] := by
    rcases hd : o.getDigestHeader dtok repository tag with e | s <;> simp [GetDigest, hd]
  refine ⟨⟨?_, ?_, ?_⟩, ⟨?_, ?_, ?_⟩, ⟨rfl, rfl, rfl⟩, ⟨?_, ?_⟩⟩
  · rw [hAT]; rfl
  · rw [hAT]; rfl
  · exact ⟨[Effect.counterInc bitbucketTarget,
      Effect.httpRequest "POST".toList bitbucketTokenURL], by rw [hAT]; rfl, rfl, rfl⟩
  · rw [hEM]; rfl
  · rw [hEM]; rfl
  · exact ⟨[Effect.counterInc bitbucketTarget,
      Effect.httpRequest "GET".toList (bitbucketManifestURL ev)], by rw [hEM]; rfl, rfl, rfl⟩
  · rw [hGD]; rfl
  · exact ⟨[Effect.httpRequest "HEAD".toList (dockerDigestURL repository tag)],
      by rw [hGD]; rfl, rfl, rfl⟩

/-- Claim C9: the authenticated repository URL construction never sets
its error result and performs no effect (in particular no network call),
and on a plain bitbucket repository URL it is the pure string transform
that embeds x-token-auth and the token into the authority of the URL. -/
theorem getAuthenticatedRepositoryURL_pure (accessToken : BbAccessToken) (rest : Str)
    (hrest : containsSub bitbucketBaseURL rest = false) :
    (∀ htmlURL, (GetAuthenticatedRepositoryURL accessToken htmlURL).1.2 = none ∧
       (GetAuthenticatedRepositoryURL accessToken htmlURL).2 = []) ∧
    (GetAuthenticatedRepositoryURL accessToken (bitbucketBaseURL ++ rest)).1.1
      = "https://x-token-auth:".toList ++ accessToken.accessToken
          ++ "@bitbucket.org".toList ++ rest := by
  refine ⟨fun _ => ⟨rfl, rfl⟩, ?_⟩
  show goReplaceAll bitbucketBaseURL (bitbucketAuthURL accessToken)
      (bitbucketBaseURL ++ rest) = _
  rw [goReplaceAll_strip_front _ _ _ (by decide) hrest, bitbucketAuthURL]

/-- Witness for claim C9 at a concrete token and repository path. -/
theorem getAuthenticatedRepositoryURL_pure_witness :
    containsSub bitbucketBaseURL "/estafette/repo-a".toList = false ∧
    (GetAuthenticatedRepositoryURL { accessToken := "token-1".toList }
        (bitbucketBaseURL ++ "/estafette/repo-a".toList)).1.1
      = "https://x-token-auth:".toList ++ "token-1".toList
          ++ "@bitbucket.org".toList ++ "/estafette/repo-a".toList :=
  ⟨by decide,
   (getAuthenticatedRepositoryURL_pure { accessToken := "token-1".toList }
     "/estafette/repo-a".toList (by decide)).2⟩
